import Mathlib

/-!
Verification development for the hydro-zynq acquisition firmware
(`src/software/app/main_bin.c`, `src/software/src/system_params.h`).

The definitions below are a shallow embedding of the pieces of the firmware
that the claims refer to: the numeric system parameters, the tick-time
conversions, the UDP command handler (`parse_packet` / `receive_command`),
the sample-count computation of the scheduler loop, the silent-running
request, and the per-cycle control flow of `go`'s main `while (1)` loop.

Collaborator code that is not part of the repository snapshot
(`acquire_sync`, `truncate`, `cross_correlate`, `record`, `time_util`,
network and hardware shims) is treated as an oracle: its observable
outcomes are inputs to the scheduler-cycle model, and the few values the
claims need from it are modelled from the specification, each marked with
a doc comment starting `Modelled from the spec:`.
-/

namespace HydroZynq

/-! ### System constants (`system_params.h`, `main_bin.c`) -/

/-- `#define ARM_CLK_PLL 666667000` (`system_params.h`). -/
def ARM_CLK_PLL : ℕ := 666667000

/-- `#define CPU_CLOCK_HZ (ARM_CLK_PLL/2)` (`system_params.h`). -/
def CPU_CLOCK_HZ : ℕ := ARM_CLK_PLL / 2

/-- `#define SAMPLING_FREQUENCY 5000000` (`system_params.h`). -/
def SAMPLING_FREQUENCY : ℕ := 5000000

/-- `#define MAX_SAMPLES (SAMPLING_FREQUENCY/1000 * 2200)` in
`system_params.h`. `main_bin.c` redefines the macro (see `MAX_SAMPLES`);
the redefinition is the one in effect in `main_bin.c`. -/
def headerMaxSamples : ℕ := SAMPLING_FREQUENCY / 1000 * 2200

/-- `#define MAX_SAMPLES 45000 * 2200` — the local redefinition at the top
of `main_bin.c`, which is the value used by the `go` loop (clamping of
`num_samples` and the `cross_correlate` capacity argument). -/
def MAX_SAMPLES : ℕ := 45000 * 2200

/-- `correlation_t correlations[50000]` — the declared entry count of the
correlation buffer in `main_bin.c`. -/
def correlationsCapacity : ℕ := 50000

/-- Capacity argument passed at the single `cross_correlate` call site:
`MAX_SAMPLES * 2` (`main_bin.c`, `go`). -/
def xcorrCapacityArg : ℕ := MAX_SAMPLES * 2

/-- Modelled from the spec: `FPGA_CLK` is not defined under `src/`; the
spec fixes a 100 MHz FPGA clock (`sample_clk_div = 10` gives 5 MHz). -/
def FPGA_CLK : ℕ := 100000000

/-- Modelled from the spec: `INITIAL_ADC_THRESHOLD` is not defined under
`src/`; the spec gives the initial `ping_threshold = 1500`, matching
`ADC_THRESHOLD` in `system_params.h`. -/
def INITIAL_ADC_THRESHOLD : ℕ := 1500

/-! ### Tick-time conversions

Modelled from the spec: `time_util` is not under `src/`.  The spec states
the conversions `ticks_to_ms`, `ms_to_ticks`, `micros_to_ticks` assume
`CPU_CLOCK_HZ = ARM_CLK_PLL/2`; they are modelled as integer scaling by
ticks-per-millisecond (resp. ticks-per-microsecond). -/

/-- Ticks per millisecond, `CPU_CLOCK_HZ / 1000` in integer arithmetic. -/
def ticksPerMs : ℕ := CPU_CLOCK_HZ / 1000

/-- Modelled from the spec: `ms_to_ticks` over signed tick arithmetic. -/
def msToTicksZ (ms : ℤ) : ℤ := ms * (ticksPerMs : ℤ)

/-- Modelled from the spec: `ticks_to_ms` over signed tick arithmetic. -/
def ticksToMsZ (t : ℤ) : ℤ := t / (ticksPerMs : ℤ)

/-- Modelled from the spec: `micros_to_ticks`. -/
def microsToTicks (us : ℕ) : ℕ := us * (CPU_CLOCK_HZ / 1000000)

/-- `CPU_CLOCK_HZ / sampling_frequency` — the C integer quotient used at
`main_bin.c` line 494 to convert a sample index into ticks. -/
def ticksPerSample (fs : ℕ) : ℕ := CPU_CLOCK_HZ / fs

/-! ### Runtime parameters and mutable application state

`HydroZynqParams params`, `bool sync`, `bool debug_stream`
(`main_bin.c` globals). -/

/-- The runtime parameter block `HydroZynqParams params`. -/
structure Params where
  sample_clk_div : ℕ
  samples_per_packet : ℕ
  ping_threshold : ℕ
  pre_ping_duration : ℕ
  post_ping_duration : ℕ
  filter : Bool
deriving DecidableEq, Repr

/-- The mutable globals of `main_bin.c` that the command handler and the
scheduler share: `params`, `debug_stream` and the `sync` latch. -/
structure AppState where
  params : Params
  debug_stream : Bool
  sync : Bool
deriving DecidableEq, Repr

/-! ### Command handler (`parse_packet`, `receive_command`) -/

/-- The NUL byte that `receive_command` appends to the copied payload. -/
def NUL : Char := Char.ofNat 0

/-- The token-splitting loop of `parse_packet`: walk the bytes, record a
token at every `,` or NUL, stop at NUL or when `max_pairs` (10) tokens
have been recorded.  `cap` is the number of tokens that may still be
recorded (`max_pairs - *num_pairs`), `cur` the reversed bytes of the
token being accumulated. -/
def scanTokens : List Char → ℕ → List Char → List (List Char)
  | _, 0, _ => []
  | [], _ + 1, _ => []
  | c :: rest, cap + 1, cur =>
    if c = NUL then [cur.reverse]
    else if c = ',' then cur.reverse :: scanTokens rest cap []
    else scanTokens rest (cap + 1) (c :: cur)

/-- The key/value split of `parse_packet`: split a token at its first
`:`; `none` models the `AbortIfNot(pairs[i].value, fail)` failure when a
token has no `:`. -/
def splitColon : List Char → Option (List Char × List Char)
  | [] => none
  | c :: rest =>
    if c = ':' then some ([], rest)
    else
      match splitColon rest with
      | none => none
      | some (k, v) => some (c :: k, v)

/-- The key/value pass of `parse_packet` over all recorded tokens: every
token must contain a `:`; the first one that does not fails the whole
parse. -/
def splitAll : List (List Char) → Option (List (List Char × List Char))
  | [] => some []
  | t :: ts =>
    match splitColon t with
    | none => none
    | some kv =>
      match splitAll ts with
      | none => none
      | some rest => some (kv :: rest)

/-- `parse_packet` as called from `receive_command`: the payload with a
NUL terminator appended is scanned into at most 10 tokens, and each token
must contain a `:`.  Failure of any recorded token fails the whole
parse. -/
def parse_packet (payload : List Char) : Option (List (List Char × List Char)) :=
  splitAll (scanTokens (payload ++ [NUL]) 10 [])

/-- Claim-side notion (spec wording): the plain comma-split of a packet
into its comma-separated tokens, with no pair cap and no NUL handling.
Used only to state what the claims call "a comma-separated token of a
packet" and compare it with what `parse_packet` records. -/
def commaTokens : List Char → List (List Char)
  | [] => [[]]
  | c :: rest =>
    if c = ',' then [] :: commaTokens rest
    else
      match commaTokens rest with
      | t :: ts => (c :: t) :: ts
      | [] => [[c]]

/-- ASCII decimal digit test, as consumed by `sscanf("%u", ...)`. -/
def isDigit (c : Char) : Bool := '0' ≤ c && c ≤ '9'

/-- Accumulate the value of a digit string. -/
def digitsVal : ℕ → List Char → ℕ
  | acc, [] => acc
  | acc, c :: cs => digitsVal (acc * 10 + (c.toNat - '0'.toNat)) cs

/-- `sscanf(value, "%u", &x)` on a command value: skip leading blanks,
then read at least one decimal digit (trailing bytes are ignored); the
stored `unsigned int` is reduced mod `2^32`.  `none` models a conversion
count of zero, which makes the handler's `AbortIfNot` return. -/
def parseUInt (s : List Char) : Option ℕ :=
  let t := s.dropWhile fun c => c = ' ' || c = '\t' || c = '\n' || c = '\r'
  let ds := t.takeWhile isDigit
  if ds.isEmpty then none else some (digitsVal 0 ds % 2 ^ 32)

/-- One iteration of `receive_command`'s key dispatch: the effect of a
single parsed `key:value` pair on the shared state.  `none` models the
paths on which control leaves the loop without completing the iteration
(`AbortIfNot(sscanf ...)` returning, or `reset`'s reboot). -/
def applyToken (st : AppState) (key value : List Char) : Option AppState :=
  if key = "threshold".toList then
    match parseUInt value with
    | none => none
    | some v =>
      some { st with
        params := { st.params with ping_threshold := v },
        sync := false }
  else if key = "filter".toList then
    match parseUInt value with
    | none => none
    | some v => some { st with params := { st.params with filter := v != 0 } }
  else if key = "debug".toList then
    match parseUInt value with
    | none => none
    | some v => some { st with debug_stream := v != 0 }
  else if key = "pre_ping_duration_us".toList then
    match parseUInt value with
    | none => none
    | some v =>
      some { st with params := { st.params with pre_ping_duration := microsToTicks v } }
  else if key = "post_ping_duration_us".toList then
    match parseUInt value with
    | none => none
    | some v =>
      some { st with params := { st.params with post_ping_duration := microsToTicks v } }
  else if key = "reset".toList then none
  else some st

/-- The dispatch loop of `receive_command` over the parsed pairs: stop at
the first pair whose iteration does not complete, keeping the state
mutated so far. -/
def applyPairs : AppState → List (List Char × List Char) → AppState
  | st, [] => st
  | st, (k, v) :: rest =>
    match applyToken st k v with
    | none => st
    | some st2 => applyPairs st2 rest

/-- `char data[1024]` — the stack buffer of `receive_command`. -/
def commandBufSize : ℕ := 1024

/-- The over-length test of `receive_command`:
`p->len > (sizeof(data) - 1)`. -/
def packetTooLong (len : ℕ) : Bool := decide (commandBufSize - 1 < len)

/-- `receive_command` on a UDP payload: drop over-length packets, parse,
and on parse success dispatch every pair; on parse failure the state is
untouched. -/
def receive_command (st : AppState) (payload : List Char) : AppState :=
  if packetTooLong payload.length then st
  else
    match parse_packet payload with
    | none => st
    | some pairs => applyPairs st pairs

/-! ### Acquisition lengths (`go`, `main_bin.c` lines 379-380, 441-451) -/

/-- Number of samples for a duration in milliseconds at sampling frequency
`fs`.  The C source computes `duration_ms / 1000.0 * fs` in `double`
arithmetic and converts to `uint32_t`; for the two durations the firmware
uses (300 ms and 2100 ms at 5 MHz) the packet-rounded acquisition length
below coincides with the one obtained from the `double` computation, and
the claims about alignment are proved for an arbitrary raw length. -/
def samplesForDurationMs (ms fs : ℕ) : ℕ := ms * fs / 1000

/-- Lines 443-446 of `main_bin.c`: round `num_samples` up to the next
multiple of `samples_per_packet`. -/
def roundUpSamples (n spp : ℕ) : ℕ :=
  if n % spp ≠ 0 then n + (spp - n % spp) else n

/-- Lines 448-451 of `main_bin.c`: clamp `num_samples` to `MAX_SAMPLES`
rounded down to a multiple of `samples_per_packet`.  (The C code reads
the packet size from `adc.regs->samples_per_packet` here; it equals
`params.samples_per_packet`, which was copied from that register.) -/
def clampSamples (n spp : ℕ) : ℕ :=
  if MAX_SAMPLES < n then MAX_SAMPLES - MAX_SAMPLES % spp else n

/-- The number of samples handed to `record` by the capture phase of the
`go` loop: rounded up to the packet size, then clamped. -/
def numSamplesForCycle (raw spp : ℕ) : ℕ :=
  clampSamples (roundUpSamples raw spp) spp

/-- Modelled from the spec: the body of `acquire_sync` is not under
`src/`; per the spec, "all acquisition lengths are rounded up to a
multiple" of `samples_per_packet`, so the DMA acquisition inside
`acquire_sync` records the requested length rounded up to the packet
size. -/
def acquireSyncRecordLen (requested spp : ℕ) : ℕ := roundUpSamples requested spp

/-- `sampling_frequency = FPGA_CLK / (params.sample_clk_div * 2)`
(`main_bin.c` line 362). -/
def samplingFreq (p : Params) : ℕ := FPGA_CLK / (p.sample_clk_div * 2)

/-! ### Ping-tick bookkeeping (`main_bin.c` lines 494-495) -/

/-- The value the code assigns to `previous_ping_tick` after a located
truncate: `sample_start_tick + start_index * (CPU_CLOCK_HZ / fs)` with
the C integer quotient. -/
def codePingTick (startTick : ℤ) (i fs : ℕ) : ℤ :=
  startTick + (i : ℤ) * (ticksPerSample fs : ℤ)

/-- The true acquisition tick of sample `i` of a buffer whose first
sample was acquired at `startTick`, as an exact rational: samples are
spaced `CPU_CLOCK_HZ / fs` ticks apart. -/
def truePingTickQ (startTick : ℤ) (i fs : ℕ) : ℚ :=
  (startTick : ℚ) + (i : ℚ) * ((CPU_CLOCK_HZ : ℚ) / (fs : ℚ))

/-- One sample period, in ticks, as an exact rational. -/
def samplePeriodTicksQ (fs : ℕ) : ℚ := (CPU_CLOCK_HZ : ℚ) / (fs : ℚ)

/-! ### Silent-running request (`request_thruster_shutdown`) -/

/-- Little-endian byte serialization of an `int32_t` as `memcpy` lays it
into the message buffer. -/
def int32Bytes (x : ℤ) : List ℕ :=
  [(x % 2 ^ 32).toNat % 256,
   (x % 2 ^ 32).toNat / 256 % 256,
   (x % 2 ^ 32).toNat / 256 ^ 2 % 256,
   (x % 2 ^ 32).toNat / 256 ^ 3 % 256]

/-- The `char msg[8]` built by `request_thruster_shutdown`: `when_ms`
followed by `duration_ms`. -/
def thrusterMsg (whenMs durationMs : ℤ) : List ℕ :=
  int32Bytes whenMs ++ int32Bytes durationMs

/-- The deadline `next_ping_tick - ms_to_ticks(50)` used both as the
requested thruster-shutdown time and as the busy-wait bound. -/
def nextPingDeadline (next : ℤ) : ℤ := next - msToTicksZ 50

/-- `when_ms = ticks_to_ms(future_ticks - get_system_time())` where the
requested future tick is `next_ping_tick - ms_to_ticks(50)`. -/
def thrusterWhenMs (next now : ℤ) : ℤ := ticksToMsZ (nextPingDeadline next - now)

/-- `duration_ms = ticks_to_ms(ms_to_ticks(100))`: the shutdown duration
of the request as it appears on the wire. -/
def thrusterDurMs : ℤ := ticksToMsZ (msToTicksZ 100)

/-! ### The scheduler cycle (`go`'s `while (1)` loop) -/

/-- Observable actions of one scheduler cycle, in program order. -/
inductive CycleEvent where
  | evAcquireSync (samplesToTake : ℕ)
  | evThrusterRequest (whenMs durationMs : ℤ)
  | evBusyWaitUntil (deadline : ℤ)
  | evRecord (numSamples : ℕ)
  | evNormalize (numSamples : ℕ)
  | evFilter (numSamples : ℕ)
  | evTruncate (numSamples : ℕ)
  | evCrossCorrelate (pingLength capacity : ℕ)
  | evSendResult
  | evSendXcorr
  | evSendData (numSamples : ℕ)
deriving DecidableEq, Repr

/-- Oracle inputs of one cycle: the clock reading at the prediction
check, the outcome the sync acquirer eventually reports, and the outcome
of `truncate` (which is not under `src/`). -/
structure CycleInput where
  now : ℤ
  syncFound : Bool
  syncTick : ℤ
  located : Bool
  startIndex : ℕ
  endIndex : ℕ
  sampleStartTick : ℤ
deriving Repr

/-- The guard of the sync-acquisition block, `!sync && !debug_stream`
(`main_bin.c` line 372). -/
def entersSync (st : AppState) : Bool := !st.sync && !st.debug_stream

/-- `previous_ping_tick` after the sync-acquisition block: the tick
written by `acquire_sync` when the block ran, otherwise unchanged. -/
def prevAfterSync (st : AppState) (prev : ℤ) (inp : CycleInput) : ℤ :=
  if entersSync st then inp.syncTick else prev

/-- The prediction loop of lines 418-422: starting from
`previous_ping_tick`, add `ms_to_ticks(2000)` while the current time is
past `next_ping_tick - ms_to_ticks(50)`. -/
def nextPingTick (now next : ℤ) : ℤ :=
  if _h : now > next - msToTicksZ 50 then nextPingTick now (next + msToTicksZ 2000)
  else next
termination_by (now + msToTicksZ 50 - next).toNat
decreasing_by
  simp only [msToTicksZ, ticksPerMs, CPU_CLOCK_HZ, ARM_CLK_PLL] at *
  norm_num at *
  omega

/-- The number of samples passed to `acquire_sync` (line 380):
2100 ms worth of samples. -/
def syncRecordLen (st : AppState) : ℕ :=
  samplesForDurationMs 2100 (samplingFreq st.params)

/-- The number of samples recorded by the capture phase (lines 441-451):
2100 ms in debug mode, 300 ms otherwise, packet-rounded and clamped. -/
def cycleRecordLen (st : AppState) : ℕ :=
  numSamplesForCycle
    (samplesForDurationMs (if st.debug_stream then 2100 else 300) (samplingFreq st.params))
    st.params.samples_per_packet

/-- Events of the prediction / silent-running / busy-wait block
(lines 416-436). -/
def predictEvents (prev1 now : ℤ) : List CycleEvent :=
  [CycleEvent.evThrusterRequest (thrusterWhenMs (nextPingTick now prev1) now) thrusterDurMs,
   CycleEvent.evBusyWaitUntil (nextPingDeadline (nextPingTick now prev1))]

/-- Events of the capture phase (lines 453-468): record, normalize, and
optionally filter. -/
def captureEvents (st : AppState) : List CycleEvent :=
  [CycleEvent.evRecord (cycleRecordLen st), CycleEvent.evNormalize (cycleRecordLen st)] ++
    (if st.params.filter then [CycleEvent.evFilter (cycleRecordLen st)] else [])

/-- One iteration of `go`'s `while (1)` loop, from the `dispatch` at the
top to the `continue` / loop end, as a function of the shared state, the
local `previous_ping_tick`, and the cycle's oracle inputs.  The result is
the state and `previous_ping_tick` at the end of the iteration together
with the list of observable actions; `none` abstracts the iterations
that never complete (the sync retry loop when no ping is ever found, and
the fatal `AbortIfNot(end_index > start_index, fail)` reboot path).
Commands are modelled as taking effect at cycle boundaries, per the
spec's cooperative-scheduling model. -/
def schedulerCycle (st : AppState) (prevPing : ℤ) (inp : CycleInput) :
    Option (AppState × ℤ × List CycleEvent) :=
  if entersSync st && !inp.syncFound then none
  else
    let st1 := if entersSync st then { st with sync := true } else st
    let prev1 := prevAfterSync st prevPing inp
    let ev1 := if entersSync st then [CycleEvent.evAcquireSync (syncRecordLen st)] else []
    let ev2 := if st.debug_stream then [] else predictEvents prev1 inp.now
    let n := cycleRecordLen st
    let ev3 := captureEvents st
    if st.debug_stream then
      some (st1, prev1, ev1 ++ ev2 ++ ev3 ++ [CycleEvent.evSendData n])
    else if !inp.located then
      some ({ st1 with sync := false }, prev1, ev1 ++ ev2 ++ ev3 ++ [CycleEvent.evTruncate n])
    else if inp.endIndex ≤ inp.startIndex then none
    else
      some ({ st1 with sync := true },
        codePingTick inp.sampleStartTick inp.startIndex (samplingFreq st.params),
        ev1 ++ ev2 ++ ev3 ++
          [CycleEvent.evTruncate n,
           CycleEvent.evCrossCorrelate (inp.endIndex - inp.startIndex) xcorrCapacityArg,
           CycleEvent.evSendResult, CycleEvent.evSendXcorr,
           CycleEvent.evSendData (inp.endIndex - inp.startIndex)])

/-- The events the prediction and capture deadlines consist of: thruster
request, busy wait, and the record call.  Filtering a cycle trace with
this predicate exposes their multiplicity and order. -/
def isPredictCaptureEv : CycleEvent → Bool
  | CycleEvent.evThrusterRequest _ _ => true
  | CycleEvent.evBusyWaitUntil _ => true
  | CycleEvent.evRecord _ => true
  | _ => false

/-! ### Concrete states and inputs used by witnesses and counterexamples

`cParams` is the parameter block `go` sets up before entering the loop
(lines 345-357): `clk_div = 10`, `samples_per_packet = 128`,
`ping_threshold = INITIAL_ADC_THRESHOLD`, pre/post ping durations of
100 us / 50 us, filtering off. -/

/-- The initial runtime parameters of `go`. -/
def cParams : Params :=
  { sample_clk_div := 10, samples_per_packet := 128,
    ping_threshold := INITIAL_ADC_THRESHOLD,
    pre_ping_duration := microsToTicks 100, post_ping_duration := microsToTicks 50,
    filter := false }

/-- A synced, non-debug state with the initial parameters. -/
def cSt1 : AppState := { params := cParams, debug_stream := false, sync := true }

/-- A debug-mode state with the initial parameters. -/
def cStD : AppState := { params := cParams, debug_stream := true, sync := false }

/-- Cycle oracle: clock 50 ms before tick 0, truncate does not locate. -/
def cInp1 : CycleInput :=
  { now := -16666650, syncFound := true, syncTick := 0, located := false,
    startIndex := 0, endIndex := 0, sampleStartTick := 0 }

/-- Cycle oracle: clock 50 ms before tick 0, truncate locates the window
`[5, 133)` of a capture that started at tick 1000. -/
def cInp2 : CycleInput :=
  { now := -16666650, syncFound := true, syncTick := 0, located := true,
    startIndex := 5, endIndex := 133, sampleStartTick := 1000 }

/-- The state after `cSt1` runs a cycle whose truncate fails. -/
def cOut1 : AppState := { params := cParams, debug_stream := false, sync := false }

/-- The state after `cSt1` runs a cycle whose truncate locates. -/
def cOut2 : AppState := { params := cParams, debug_stream := false, sync := true }

/-- Trace of the `cSt1` / `cInp1` cycle (truncate fails). -/
def cTr1 : List CycleEvent :=
  [CycleEvent.evThrusterRequest 0 100, CycleEvent.evBusyWaitUntil (-16666650),
   CycleEvent.evRecord 1500032, CycleEvent.evNormalize 1500032,
   CycleEvent.evTruncate 1500032]

/-- Trace of the `cSt1` / `cInp2` cycle (truncate locates). -/
def cTr2 : List CycleEvent :=
  [CycleEvent.evThrusterRequest 0 100, CycleEvent.evBusyWaitUntil (-16666650),
   CycleEvent.evRecord 1500032, CycleEvent.evNormalize 1500032,
   CycleEvent.evTruncate 1500032, CycleEvent.evCrossCorrelate 128 198000000,
   CycleEvent.evSendResult, CycleEvent.evSendXcorr, CycleEvent.evSendData 128]

/-- Trace of the `cStD` debug cycle. -/
def cTrD : List CycleEvent :=
  [CycleEvent.evRecord 10500096, CycleEvent.evNormalize 10500096,
   CycleEvent.evSendData 10500096]

/-- A packet of eleven comma-separated tokens whose first ten are
well-formed and whose eleventh, `x`, has no colon. -/
def cBadPacket : List Char := "a:,a:,a:,a:,a:,a:,a:,a:,a:,a:,x".toList

/-! ## Helper lemmas -/

/-- `ticks_to_ms(ms_to_ticks(100)) = 100`: the integer round trip of the
silent-running duration is exact. -/
theorem thrusterDurMs_eq : thrusterDurMs = 100 := by decide

/-- At the deployed rate the per-sample tick increment used by the code
is `333333500 / 5000000 = 66`. -/
theorem ticksPerSample_default : ticksPerSample 5000000 = 66 := by decide

/-- Rounding up to a packet multiple produces a packet multiple. -/
theorem roundUpSamples_mod (n : ℕ) {spp : ℕ} (hspp : 0 < spp) :
    roundUpSamples n spp % spp = 0 := by
  unfold roundUpSamples
  by_cases h : n % spp = 0
  · simp [h]
  · have hlt : n % spp < spp := Nat.mod_lt _ hspp
    have hdm := Nat.div_add_mod n spp
    have heq : n + (spp - n % spp) = spp * (n / spp + 1) := by
      rw [Nat.mul_add, Nat.mul_one]; omega
    simp [h, heq, Nat.mul_mod_right]

/-- Rounding up never shrinks a positive sample count to zero. -/
theorem roundUpSamples_pos (n spp : ℕ) (hn : 0 < n) : 0 < roundUpSamples n spp := by
  unfold roundUpSamples
  split
  · exact Nat.lt_of_lt_of_le hn (Nat.le_add_right _ _)
  · exact hn

/-- Clamping preserves packet alignment. -/
theorem clampSamples_mod {n spp : ℕ} (hmod : n % spp = 0) :
    clampSamples n spp % spp = 0 := by
  unfold clampSamples
  split
  · have hdm := Nat.div_add_mod MAX_SAMPLES spp
    have heq : MAX_SAMPLES - MAX_SAMPLES % spp = spp * (MAX_SAMPLES / spp) := by omega
    rw [heq]
    exact Nat.mul_mod_right _ _
  · exact hmod

/-- Clamping preserves positivity as long as the packet size itself fits
into the sample buffer. -/
theorem clampSamples_pos {n spp : ℕ} (hspp : 0 < spp) (hn : 0 < n)
    (hle : spp ≤ MAX_SAMPLES) : 0 < clampSamples n spp := by
  unfold clampSamples
  split
  · have hdm := Nat.div_add_mod MAX_SAMPLES spp
    have hlt : MAX_SAMPLES % spp < spp := Nat.mod_lt _ hspp
    omega
  · exact hn

/-- A token without a colon fails the key/value split. -/
theorem splitColon_eq_none {t : List Char} (h : ':' ∉ t) : splitColon t = none := by
  induction t with
  | nil => rfl
  | cons c rest ih =>
    have hc : ¬ c = ':' := fun hcc => h (hcc ▸ List.mem_cons_self c rest)
    have hrest : ':' ∉ rest := fun hm => h (List.mem_cons_of_mem c hm)
    simp [splitColon, hc, ih hrest]

/-- If any recorded token fails the key/value split, the whole
`parse_packet` traversal fails. -/
theorem splitAll_eq_none {l : List (List Char)} {t : List Char}
    (ht : t ∈ l) (hn : splitColon t = none) : splitAll l = none := by
  induction l with
  | nil => cases ht
  | cons a as ih =>
    rcases List.mem_cons.mp ht with rfl | hmem
    · simp [splitAll, hn]
    · cases ha : splitColon a with
      | none => simp [splitAll, ha]
      | some kv => simp [splitAll, ha, ih hmem]

/-! ## Claims -/

/-- Claim C9: the capacity argument of the single `cross_correlate` call
site, `MAX_SAMPLES * 2` with `main_bin.c`'s local `MAX_SAMPLES`, vastly
exceeds the 50000 declared entries of the `correlations` buffer, so a
`cross_correlate` that fills its advertised capacity writes far past the
end of the buffer.  This refutes the claimed bound and confirms the bug
the design notes flag. -/
theorem xcorr_capacity_exceeds_buffer :
    correlationsCapacity < xcorrCapacityArg ∧
    xcorrCapacityArg = 198000000 ∧ correlationsCapacity = 50000 := by decide

/-- Claim C7 (amended): the over-length check of `receive_command` is
`p->len > sizeof(data) - 1`, i.e. a payload is discarded exactly when it
is longer than 1023 bytes, and a discarded payload leaves the state
untouched. -/
theorem receive_command_overlength :
    (∀ len : ℕ, packetTooLong len = true ↔ 1023 < len) ∧
    (∀ (st : AppState) (payload : List Char), packetTooLong payload.length = true →
      receive_command st payload = st) := by
  constructor
  · intro len
    simp [packetTooLong, commandBufSize]
  · intro st payload h
    simp [receive_command, h]

/-- Witness for `receive_command_overlength` at a 1024-byte payload. -/
theorem receive_command_overlength_witness :
    packetTooLong 1024 = true ∧
    receive_command cSt1 (List.replicate 1024 'a') = cSt1 := by
  constructor
  · exact (receive_command_overlength.1 1024).2 (by norm_num)
  · exact receive_command_overlength.2 cSt1 (List.replicate 1024 'a')
      (by rw [List.length_replicate]; decide)

/-- Claim C7 is refuted at a payload of exactly 1024 bytes: the claim
says every payload of length up to 1024 is accepted and only lengths
exceeding 1024 are discarded, but the code's check flags length 1024 as
over-length even though 1024 does not exceed 1024. -/
theorem receive_command_overlength_cx :
    packetTooLong 1024 = true ∧ ¬ (1024 > commandBufSize) := by decide

/-- Claim C6: a well-formed `threshold:v` token sets `ping_threshold`
to `v`, clears the sync latch, and changes nothing else. -/
theorem threshold_token_effect (st : AppState) (v : ℕ) (s : List Char)
    (h : parseUInt s = some v) :
    applyToken st "threshold".toList s =
      some { st with params := { st.params with ping_threshold := v }, sync := false } := by
  simp [applyToken, h]

/-- Witness for `threshold_token_effect` at the token `threshold:1500`. -/
theorem threshold_token_effect_witness :
    parseUInt "1500".toList = some 1500 ∧
    applyToken cSt1 "threshold".toList "1500".toList =
      some { cSt1 with params := { cSt1.params with ping_threshold := 1500 }, sync := false } :=
  ⟨by decide, threshold_token_effect cSt1 1500 "1500".toList (by decide)⟩

/-- Claim C8: a well-formed `pre_ping_duration_us:v` token stores
`micros_to_ticks(v)` in `pre_ping_duration`, and likewise a
`post_ping_duration_us:v` token stores `micros_to_ticks(v)` in
`post_ping_duration`. -/
theorem ping_duration_roundtrip (st : AppState) (v : ℕ) (s t : List Char)
    (hs : parseUInt s = some v) (ht : parseUInt t = some v) :
    applyToken st "pre_ping_duration_us".toList s =
      some { st with params := { st.params with pre_ping_duration := microsToTicks v } } ∧
    applyToken st "post_ping_duration_us".toList t =
      some { st with params := { st.params with post_ping_duration := microsToTicks v } } := by
  constructor
  · simp [applyToken, hs]
  · simp [applyToken, ht]

/-- Witness for `ping_duration_roundtrip` at value 123. -/
theorem ping_duration_roundtrip_witness :
    parseUInt "123".toList = some 123 ∧
    applyToken cSt1 "pre_ping_duration_us".toList "123".toList =
      some { cSt1 with params := { cSt1.params with pre_ping_duration := microsToTicks 123 } } :=
  ⟨by decide,
   (ping_duration_roundtrip cSt1 123 "123".toList "123".toList (by decide) (by decide)).1⟩

/-- Claim C2: every sample count handed to the DMA is a positive multiple
of `samples_per_packet` — the capture-phase count after round-up and
clamp, the (spec-modelled) acquisition inside `acquire_sync`, and the
initial throw-away `record` of exactly one packet. -/
theorem record_lengths_packet_aligned (raw spp : ℕ) (hspp : 0 < spp)
    (hraw : 0 < raw) (hle : spp ≤ MAX_SAMPLES) :
    (numSamplesForCycle raw spp % spp = 0 ∧ 0 < numSamplesForCycle raw spp) ∧
    (acquireSyncRecordLen raw spp % spp = 0 ∧ 0 < acquireSyncRecordLen raw spp) ∧
    spp % spp = 0 := by
  refine ⟨⟨clampSamples_mod (roundUpSamples_mod raw hspp),
           clampSamples_pos hspp (roundUpSamples_pos raw spp hraw) hle⟩,
          ⟨roundUpSamples_mod raw hspp, roundUpSamples_pos raw spp hraw⟩,
          Nat.mod_self spp⟩

/-- Witness for `record_lengths_packet_aligned` at the deployed values:
the 300 ms capture at 5 MHz (raw count 1499999 as the C `double`
arithmetic produces) with 128-sample packets. -/
theorem record_lengths_packet_aligned_witness :
    ((0:ℕ) < 128 ∧ (0:ℕ) < 1499999 ∧ (128:ℕ) ≤ MAX_SAMPLES) ∧
    numSamplesForCycle 1499999 128 % 128 = 0 ∧ 0 < numSamplesForCycle 1499999 128 :=
  ⟨by decide,
   (record_lengths_packet_aligned 1499999 128 (by decide) (by decide) (by decide)).1⟩

/-- Claim C10 (amended): if any token the parser records — the first ten
comma-separated tokens of the NUL-terminated payload, including the
single empty token of an empty packet — lacks a `:`, then `parse_packet`
fails and `receive_command` leaves every parameter and the sync bit
untouched.  (Tokens beyond the tenth are never recorded, see the
counterexample.) -/
theorem parse_failure_all_or_nothing (st : AppState) (payload : List Char)
    (h : ∃ t ∈ scanTokens (payload ++ [NUL]) 10 [], ':' ∉ t) :
    parse_packet payload = none ∧ receive_command st payload = st := by
  obtain ⟨t, htmem, hnc⟩ := h
  have hp : parse_packet payload = none :=
    splitAll_eq_none htmem (splitColon_eq_none hnc)
  exact ⟨hp, by simp [receive_command, hp]⟩

/-- Witness for `parse_failure_all_or_nothing`: the one-token packet `x`
is rejected wholesale. -/
theorem parse_failure_all_or_nothing_witness :
    parse_packet (['x'] : List Char) = none ∧ receive_command cSt1 ['x'] = cSt1 :=
  parse_failure_all_or_nothing cSt1 ['x'] ⟨['x'], by decide, by decide⟩

/-- Claim C10 is refuted as stated at `cBadPacket`: its eleventh
comma-separated token `x` contains no `:`, yet `parse_packet` succeeds,
because the parser caps at ten recorded pairs and silently ignores the
rest of the packet. -/
theorem parse_failure_all_or_nothing_cx :
    (∃ t ∈ commaTokens cBadPacket, ':' ∉ t) ∧ (parse_packet cBadPacket).isSome = true := by
  constructor
  · exact ⟨['x'], by decide, by decide⟩
  · decide

/-! ## The scheduler cycle: prediction-loop lemmas -/

/-- The prediction loop leaves `next_ping_tick` no earlier than 50 ms
after the observed clock: its exit condition. -/
theorem npt_not_gt (now next : ℤ) : ¬ now > nextPingTick now next - msToTicksZ 50 := by
  refine nextPingTick.induct now (fun nx => ¬ now > nextPingTick now nx - msToTicksZ 50) ?_ ?_ next
  · intro x hgt ih
    rw [nextPingTick.eq_def]
    simp only [dif_pos hgt]
    exact ih
  · intro x hng
    rw [nextPingTick.eq_def]
    simp only [dif_neg hng]
    exact hng

/-- The prediction loop adds a minimal number of whole 2000 ms periods:
the result is `previous_ping_tick + k · 2000 ms`, and unless `k = 0` the
previous multiple still violated the exit condition. -/
theorem npt_shape (now next : ℤ) :
    ∃ k : ℕ, nextPingTick now next = next + (k : ℤ) * msToTicksZ 2000 ∧
      (k = 0 ∨ now > next + ((k : ℤ) - 1) * msToTicksZ 2000 - msToTicksZ 50) := by
  refine nextPingTick.induct now
    (fun nx => ∃ k : ℕ, nextPingTick now nx = nx + (k : ℤ) * msToTicksZ 2000 ∧
      (k = 0 ∨ now > nx + ((k : ℤ) - 1) * msToTicksZ 2000 - msToTicksZ 50)) ?_ ?_ next
  · intro x hgt ih
    obtain ⟨k, hk, hor⟩ := ih
    refine ⟨k + 1, ?_, Or.inr ?_⟩
    · rw [nextPingTick.eq_def, dif_pos hgt, hk]
      push_cast
      ring
    · rcases hor with rfl | hgt2
      · simpa using hgt
      · push_cast at hgt2 ⊢
        linarith
  · intro x hng
    exact ⟨0, by rw [nextPingTick.eq_def, dif_neg hng]; simp, Or.inl rfl⟩

/-! ## The scheduler cycle: trace structure -/

/-- Structure of every completed non-debug cycle: the final state latches
`sync = located`, the trace is the optional sync acquisition, the
prediction block, the capture block, and the truncate tail (with
correlation and the three transmissions exactly when `located`), and
`previous_ping_tick` is rewritten by `codePingTick` exactly when
`located`. -/
theorem cycle_shape (st : AppState) (prev : ℤ) (inp : CycleInput)
    (st2 : AppState) (prev2 : ℤ) (tr : List CycleEvent)
    (hdbg : st.debug_stream = false)
    (h : schedulerCycle st prev inp = some (st2, prev2, tr)) :
    st2 = { st with sync := inp.located } ∧
    tr = (if entersSync st then [CycleEvent.evAcquireSync (syncRecordLen st)] else []) ++
      predictEvents (prevAfterSync st prev inp) inp.now ++
      captureEvents st ++
      (if inp.located then
        [CycleEvent.evTruncate (cycleRecordLen st),
         CycleEvent.evCrossCorrelate (inp.endIndex - inp.startIndex) xcorrCapacityArg,
         CycleEvent.evSendResult, CycleEvent.evSendXcorr,
         CycleEvent.evSendData (inp.endIndex - inp.startIndex)]
       else [CycleEvent.evTruncate (cycleRecordLen st)]) ∧
    (inp.located = true →
      prev2 = codePingTick inp.sampleStartTick inp.startIndex (samplingFreq st.params) ∧
      inp.startIndex < inp.endIndex) ∧
    (inp.located = false → prev2 = prevAfterSync st prev inp) := by
  cases hE : entersSync st with
  | false =>
    cases hL : inp.located with
    | false =>
      simp [schedulerCycle, hE, hL, hdbg] at h
      obtain ⟨h1, h2, h3⟩ := h
      refine ⟨?_, ?_, by simp, fun _ => h2.symm⟩
      · rw [← h1, hdbg]
      · rw [← h3]; simp [prevAfterSync, hE]
    | true =>
      by_cases hEI : inp.endIndex ≤ inp.startIndex
      · simp [schedulerCycle, hE, hL, hdbg, hEI] at h
      · simp [schedulerCycle, hE, hL, hdbg, hEI] at h
        obtain ⟨h1, h2, h3⟩ := h
        refine ⟨?_, ?_, fun _ => ⟨h2.symm, by omega⟩, by simp⟩
        · rw [← h1, hdbg]
        · rw [← h3]; simp [prevAfterSync, hE]
  | true =>
    cases hF : inp.syncFound with
    | false => simp [schedulerCycle, hE, hF] at h
    | true =>
      cases hL : inp.located with
      | false =>
        simp [schedulerCycle, hE, hF, hL, hdbg] at h
        obtain ⟨h1, h2, h3⟩ := h
        refine ⟨?_, ?_, by simp, fun _ => h2.symm⟩
        · rw [← h1, hdbg]
        · rw [← h3]; simp [prevAfterSync, hE]
      | true =>
        by_cases hEI : inp.endIndex ≤ inp.startIndex
        · simp [schedulerCycle, hE, hF, hL, hdbg, hEI] at h
        · simp [schedulerCycle, hE, hF, hL, hdbg, hEI] at h
          obtain ⟨h1, h2, h3⟩ := h
          refine ⟨?_, ?_, fun _ => ⟨h2.symm, by omega⟩, by simp⟩
          · rw [← h1, hdbg]
          · rw [← h3]; simp [prevAfterSync, hE]

/-- Every completed cycle that enters the sync block performs a sync
acquisition. -/
theorem cycle_acquire_mem (st : AppState) (prev : ℤ) (inp : CycleInput)
    (out : AppState × ℤ × List CycleEvent)
    (hE : entersSync st = true) (h : schedulerCycle st prev inp = some out) :
    CycleEvent.evAcquireSync (syncRecordLen st) ∈ out.2.2 := by
  cases hF : inp.syncFound with
  | false => simp [schedulerCycle, hE, hF] at h
  | true =>
    have hdbg : st.debug_stream = false := by
      rcases hd : st.debug_stream with _ | _
      · rfl
      · rw [entersSync, hd] at hE; simp at hE
    obtain ⟨_, htr, _, _⟩ := cycle_shape st prev inp out.1 out.2.1 out.2.2 hdbg (by rw [h])
    rw [htr, hE]
    simp

/-- The capture block contributes exactly its `record` call to the
deadline-relevant events. -/
theorem filter_captureEvents (st : AppState) :
    (captureEvents st).filter isPredictCaptureEv = [CycleEvent.evRecord (cycleRecordLen st)] := by
  by_cases hf : st.params.filter <;>
    simp [captureEvents, hf, isPredictCaptureEv]

/-- The sync block contributes no deadline-relevant events. -/
theorem filter_syncEvents (b : Bool) (m : ℕ) :
    ((if b then [CycleEvent.evAcquireSync m] else []).filter isPredictCaptureEv) = [] := by
  cases b <;> simp [isPredictCaptureEv]

/-! ## Scheduler claims -/

/-- Claim C1: in every completed non-debug cycle, a truncate that does
not locate the ping clears the sync latch, transmits neither the result
nor the correlation trace nor any sample trace, skips correlation, and
leaves a state that re-enters sync acquisition at the next cycle; a
truncate that locates sets sync and the cycle continues to the
correlation and all three transmissions. -/
theorem truncate_outcome (st : AppState) (prev : ℤ) (inp : CycleInput)
    (st2 : AppState) (prev2 : ℤ) (tr : List CycleEvent)
    (hdbg : st.debug_stream = false)
    (h : schedulerCycle st prev inp = some (st2, prev2, tr)) :
    (inp.located = false →
      st2.sync = false ∧ entersSync st2 = true ∧
      CycleEvent.evSendResult ∉ tr ∧ CycleEvent.evSendXcorr ∉ tr ∧
      (∀ m, CycleEvent.evSendData m ∉ tr) ∧
      (∀ l c, CycleEvent.evCrossCorrelate l c ∉ tr) ∧
      (∀ inp2 out2, schedulerCycle st2 prev2 inp2 = some out2 →
        CycleEvent.evAcquireSync (syncRecordLen st2) ∈ out2.2.2)) ∧
    (inp.located = true →
      st2.sync = true ∧
      CycleEvent.evCrossCorrelate (inp.endIndex - inp.startIndex) xcorrCapacityArg ∈ tr ∧
      CycleEvent.evSendResult ∈ tr ∧ CycleEvent.evSendXcorr ∈ tr ∧
      CycleEvent.evSendData (inp.endIndex - inp.startIndex) ∈ tr) := by
  obtain ⟨hst2, htr, hlocT, hlocF⟩ := cycle_shape st prev inp st2 prev2 tr hdbg h
  constructor
  · intro hL
    have hsync : st2.sync = false := by rw [hst2, hL]
    have hdbg2 : st2.debug_stream = false := by rw [hst2]; exact hdbg
    have hE2 : entersSync st2 = true := by simp [entersSync, hsync, hdbg2]
    refine ⟨hsync, hE2, ?_, ?_, ?_, ?_, ?_⟩
    · rw [htr, hL]
      cases hE : entersSync st <;> simp [predictEvents, captureEvents]
    · rw [htr, hL]
      cases hE : entersSync st <;> simp [predictEvents, captureEvents]
    · intro m
      rw [htr, hL]
      cases hE : entersSync st <;> simp [predictEvents, captureEvents]
    · intro l c
      rw [htr, hL]
      cases hE : entersSync st <;> simp [predictEvents, captureEvents]
    · intro inp2 out2 h2
      exact cycle_acquire_mem st2 prev2 inp2 out2 hE2 h2
  · intro hL
    have hsync : st2.sync = true := by rw [hst2, hL]
    refine ⟨hsync, ?_, ?_, ?_, ?_⟩ <;>
      · rw [htr, hL]
        simp

/-- Claim C4: a cycle that starts with `debug_stream` set performs no
sync acquisition, no silent-running request, no busy wait, no truncate
and no correlation; it records the full 2.1 s window and its only
transmission is that window on the data-stream socket. -/
theorem debug_cycle_raw_stream (st : AppState) (prev : ℤ) (inp : CycleInput)
    (hdbg : st.debug_stream = true) :
    ∃ tr, schedulerCycle st prev inp = some (st, prev, tr) ∧
      CycleEvent.evRecord (cycleRecordLen st) ∈ tr ∧
      CycleEvent.evSendData (cycleRecordLen st) ∈ tr ∧
      cycleRecordLen st =
        numSamplesForCycle (samplesForDurationMs 2100 (samplingFreq st.params))
          st.params.samples_per_packet ∧
      (∀ m, CycleEvent.evAcquireSync m ∉ tr) ∧
      (∀ a b, CycleEvent.evThrusterRequest a b ∉ tr) ∧
      (∀ d, CycleEvent.evBusyWaitUntil d ∉ tr) ∧
      (∀ m, CycleEvent.evTruncate m ∉ tr) ∧
      (∀ l c, CycleEvent.evCrossCorrelate l c ∉ tr) ∧
      CycleEvent.evSendResult ∉ tr ∧
      CycleEvent.evSendXcorr ∉ tr ∧
      (∀ m, CycleEvent.evSendData m ∈ tr → m = cycleRecordLen st) := by
  have hE : entersSync st = false := by simp [entersSync, hdbg]
  refine ⟨captureEvents st ++ [CycleEvent.evSendData (cycleRecordLen st)], ?_, ?_, ?_, ?_,
    ?_, ?_, ?_, ?_, ?_, ?_, ?_, ?_⟩
  · simp [schedulerCycle, hE, hdbg, prevAfterSync]
  · simp [captureEvents]
  · simp
  · simp [cycleRecordLen, hdbg]
  · intro m; by_cases hf : st.params.filter <;> simp [captureEvents, hf]
  · intro a b; by_cases hf : st.params.filter <;> simp [captureEvents, hf]
  · intro d; by_cases hf : st.params.filter <;> simp [captureEvents, hf]
  · intro m; by_cases hf : st.params.filter <;> simp [captureEvents, hf]
  · intro l c; by_cases hf : st.params.filter <;> simp [captureEvents, hf]
  · by_cases hf : st.params.filter <;> simp [captureEvents, hf]
  · by_cases hf : st.params.filter <;> simp [captureEvents, hf]
  · intro m; by_cases hf : st.params.filter <;> simp [captureEvents, hf]

/-- Claim C5: every completed non-debug cycle sends exactly one
silent-running request, whose first field is
`ticks_to_ms(next_ping_tick - 50 ms - now)` and whose second field is
100 ms, then busy-waits until 50 ms before `next_ping_tick` and only
then records; `next_ping_tick` is `previous_ping_tick` advanced by a
minimal whole number of 2000 ms periods until it lies at least 50 ms in
the future; the request message is 8 bytes. -/
theorem silent_running_request (st : AppState) (prev : ℤ) (inp : CycleInput)
    (st2 : AppState) (prev2 : ℤ) (tr : List CycleEvent)
    (hdbg : st.debug_stream = false)
    (h : schedulerCycle st prev inp = some (st2, prev2, tr)) :
    tr.filter isPredictCaptureEv =
      [CycleEvent.evThrusterRequest
         (thrusterWhenMs (nextPingTick inp.now (prevAfterSync st prev inp)) inp.now)
         thrusterDurMs,
       CycleEvent.evBusyWaitUntil
         (nextPingDeadline (nextPingTick inp.now (prevAfterSync st prev inp))),
       CycleEvent.evRecord (cycleRecordLen st)] ∧
    thrusterDurMs = 100 ∧
    (thrusterMsg (thrusterWhenMs (nextPingTick inp.now (prevAfterSync st prev inp)) inp.now)
       thrusterDurMs).length = 8 ∧
    inp.now ≤ nextPingDeadline (nextPingTick inp.now (prevAfterSync st prev inp)) ∧
    (∃ k : ℕ, nextPingTick inp.now (prevAfterSync st prev inp) =
        prevAfterSync st prev inp + (k : ℤ) * msToTicksZ 2000 ∧
      (k = 0 ∨ inp.now > prevAfterSync st prev inp + ((k : ℤ) - 1) * msToTicksZ 2000 -
        msToTicksZ 50)) := by
  obtain ⟨_, htr, _, _⟩ := cycle_shape st prev inp st2 prev2 tr hdbg h
  refine ⟨?_, thrusterDurMs_eq, by simp [thrusterMsg, int32Bytes], ?_, npt_shape _ _⟩
  · rw [htr]
    rw [List.filter_append, List.filter_append, List.filter_append,
      filter_syncEvents, filter_captureEvents]
    cases hL : inp.located <;>
      simp [predictEvents, isPredictCaptureEv]
  · have hn := npt_not_gt inp.now (prevAfterSync st prev inp)
    simp only [nextPingDeadline]
    omega

/-! ## Concrete cycle evaluations (used by witnesses) -/

/-- Zero iterations of the prediction loop when the clock reads exactly
50 ms before the previous ping tick. -/
theorem npt_w : nextPingTick (-16666650) 0 = 0 := by
  rw [nextPingTick.eq_def]
  norm_num [msToTicksZ, ticksPerMs, CPU_CLOCK_HZ, ARM_CLK_PLL]

/-- The prediction block of the `cSt1` / `cInp1` cycle. -/
theorem predict_eval_1 : predictEvents (prevAfterSync cSt1 0 cInp1) cInp1.now =
    [CycleEvent.evThrusterRequest 0 100, CycleEvent.evBusyWaitUntil (-16666650)] := by
  have h0 : prevAfterSync cSt1 0 cInp1 = 0 := by decide
  have h1 : cInp1.now = -16666650 := by decide
  rw [predictEvents.eq_def, h0, h1, npt_w]
  decide

/-- Concrete run of a non-debug cycle whose truncate fails. -/
theorem cycle_eval_1 : schedulerCycle cSt1 0 cInp1 = some (cOut1, 0, cTr1) := by
  simp only [schedulerCycle, predict_eval_1]
  decide

/-- The prediction block of the `cSt1` / `cInp2` cycle. -/
theorem predict_eval_2 : predictEvents (prevAfterSync cSt1 0 cInp2) cInp2.now =
    [CycleEvent.evThrusterRequest 0 100, CycleEvent.evBusyWaitUntil (-16666650)] := by
  have h0 : prevAfterSync cSt1 0 cInp2 = 0 := by decide
  have h1 : cInp2.now = -16666650 := by decide
  rw [predictEvents.eq_def, h0, h1, npt_w]
  decide

/-- Concrete run of a non-debug cycle whose truncate locates. -/
theorem cycle_eval_2 : schedulerCycle cSt1 0 cInp2 = some (cOut2, 1330, cTr2) := by
  simp only [schedulerCycle, predict_eval_2]
  decide

/-- Claim C3 is refuted as stated at `start_index = 1000` (well inside a
1.5-million-sample capture): the code's tick, computed with the integer
quotient `CPU_CLOCK_HZ / fs = 66`, differs from the true acquisition
tick by 666.7 ticks, exceeding the 66.67-tick sample period. -/
theorem ping_tick_accuracy_cx :
    ¬ (|((codePingTick 0 1000 5000000 : ℤ) : ℚ) - truePingTickQ 0 1000 5000000| ≤
       samplePeriodTicksQ 5000000) := by
  rw [abs_le]
  norm_num [codePingTick, truePingTickQ, samplePeriodTicksQ, ticksPerSample,
    CPU_CLOCK_HZ, ARM_CLK_PLL]

/-- Claim C3 (amended): after a located truncate the code sets
`previous_ping_tick` to exactly
`sample_start_tick + start_index * (CPU_CLOCK_HZ / fs)` with the integer
quotient, and at the deployed 5 MHz rate that value is within one sample
period of the true acquisition tick of sample `start_index` only for
`start_index ≤ 99`; in general the error is
`start_index * (CPU_CLOCK_HZ mod fs) / fs = start_index * 0.6667`
ticks. -/
theorem ping_tick_formula_and_accuracy :
    (∀ (st : AppState) (prev : ℤ) (inp : CycleInput) (st2 : AppState) (prev2 : ℤ)
       (tr : List CycleEvent), st.debug_stream = false → inp.located = true →
       schedulerCycle st prev inp = some (st2, prev2, tr) →
       prev2 = codePingTick inp.sampleStartTick inp.startIndex (samplingFreq st.params)) ∧
    (∀ (startTick : ℤ) (i : ℕ), i ≤ 99 →
       |((codePingTick startTick i 5000000 : ℤ) : ℚ) - truePingTickQ startTick i 5000000| ≤
         samplePeriodTicksQ 5000000) := by
  constructor
  · intro st prev inp st2 prev2 tr hdbg hL h
    exact ((cycle_shape st prev inp st2 prev2 tr hdbg h).2.2.1 hL).1
  · intro startTick i hi
    have h1 : ((codePingTick startTick i 5000000 : ℤ) : ℚ) - truePingTickQ startTick i 5000000
        = -((i : ℚ) * (6667 / 10000)) := by
      simp only [codePingTick, truePingTickQ, ticksPerSample, CPU_CLOCK_HZ, ARM_CLK_PLL]
      push_cast
      norm_num
      ring
    rw [h1, abs_neg, abs_of_nonneg (by positivity)]
    have hq : (i : ℚ) ≤ 99 := by exact_mod_cast hi
    rw [samplePeriodTicksQ]
    norm_num [CPU_CLOCK_HZ, ARM_CLK_PLL]
    linarith

/-- Witness for `truncate_outcome`: the concrete failed-truncate cycle
clears sync and transmits no result. -/
theorem truncate_outcome_witness :
    cSt1.debug_stream = false ∧ cOut1.sync = false ∧ CycleEvent.evSendResult ∉ cTr1 :=
  ⟨rfl, ((truncate_outcome cSt1 0 cInp1 cOut1 0 cTr1 rfl cycle_eval_1).1 rfl).1,
   ((truncate_outcome cSt1 0 cInp1 cOut1 0 cTr1 rfl cycle_eval_1).1 rfl).2.2.1⟩

/-- Witness for `debug_cycle_raw_stream` at the concrete debug state. -/
theorem debug_cycle_raw_stream_witness :
    cStD.debug_stream = true ∧ (schedulerCycle cStD 0 cInp1).isSome = true := by
  refine ⟨rfl, ?_⟩
  obtain ⟨tr, htr, _⟩ := debug_cycle_raw_stream cStD 0 cInp1 rfl
  rw [htr]
  rfl

/-- Witness for `silent_running_request` at the concrete cycle. -/
theorem silent_running_request_witness :
    cSt1.debug_stream = false ∧
    (cTr1.filter isPredictCaptureEv).length = 3 ∧
    cInp1.now ≤ nextPingDeadline (nextPingTick cInp1.now (prevAfterSync cSt1 0 cInp1)) := by
  have hc := silent_running_request cSt1 0 cInp1 cOut1 0 cTr1 rfl cycle_eval_1
  exact ⟨rfl, by rw [hc.1]; rfl, hc.2.2.2.1⟩

/-- Witness for `ping_tick_formula_and_accuracy`: the concrete located
cycle yields `previous_ping_tick = 1330 = 1000 + 5 * 66`, and at
`start_index = 99` the accuracy bound holds. -/
theorem ping_tick_formula_witness :
    (cSt1.debug_stream = false ∧ cInp2.located = true) ∧
    (1330 : ℤ) = codePingTick cInp2.sampleStartTick cInp2.startIndex (samplingFreq cSt1.params) ∧
    |((codePingTick 0 99 5000000 : ℤ) : ℚ) - truePingTickQ 0 99 5000000| ≤
      samplePeriodTicksQ 5000000 :=
  ⟨⟨rfl, rfl⟩,
   ping_tick_formula_and_accuracy.1 cSt1 0 cInp2 cOut2 1330 cTr2 rfl rfl cycle_eval_2,
   ping_tick_formula_and_accuracy.2 0 99 (by norm_num)⟩

end HydroZynq

